import Mathlib

/-!
Verification of the standings computation in `build_site.py`.

The Python source works on pandas DataFrames.  We embed it shallowly:
a match row becomes a `Game` (goal counts are `Option Int`, since
`pd.to_numeric(..., errors="coerce")` turns non-numeric values into NaN,
modelled as `none`), a standings row becomes a `Row`, and every pandas
group-by / merge / sort is spelled out as an explicit list computation
that mirrors the corresponding source line.
-/

namespace BuildSite

/-- One match record after `load_games` typing: `Round` and `GameInRound`
are numeric-coerced (NaN = `none`), team names and date are strings,
goal counts are numeric-coerced (`none` when missing or non-numeric). -/
structure Game where
  round : Option Int
  gameInRound : Option Int
  date : String
  homeTeam : String
  awayTeam : String
  homeGoals : Option Int
  awayGoals : Option Int
deriving DecidableEq

/-- The outcome tag returned by `per_match_points`: `"H"`, `"A"`, `"D"`, `"N"`. -/
inductive Outcome where
  | H | A | D | N
deriving DecidableEq

/-- `per_match_points(row)`: if either goal count is NaN the match is
unplayed `(0, 0, "N")`; otherwise compare the integer goal counts. -/
def per_match_points (g : Game) : Nat × Nat × Outcome :=
  match g.homeGoals, g.awayGoals with
  | none, _ => (0, 0, Outcome.N)
  | _, none => (0, 0, Outcome.N)
  | some hg, some ag =>
      if hg > ag then (3, 0, Outcome.H)
      else if hg < ag then (0, 3, Outcome.A)
      else (1, 1, Outcome.D)

/-- The `Outcome` column produced by `per_match_points`. -/
def outcomeOf (g : Game) : Outcome := (per_match_points g).2.2

/-- The `HomePts` column produced by `per_match_points`. -/
def homePts (g : Game) : Nat := (per_match_points g).1

/-- The `AwayPts` column produced by `per_match_points`. -/
def awayPts (g : Game) : Nat := (per_match_points g).2.1

/-- The filter `games[games["Outcome"] != "N"]`. -/
def isPlayed (g : Game) : Bool := outcomeOf g ≠ Outcome.N

/-- One row of the standings table (columns
`Team, Played, Wins, Draws, Losses, GF, GA, GD, Points`). -/
structure Row where
  team : String
  played : Nat
  wins : Nat
  draws : Nat
  losses : Nat
  gf : Int
  ga : Int
  gd : Int
  points : Nat
deriving DecidableEq

/-- One row of a per-side aggregation table (the `home` and `away`
group-bys in `compute_standings`; no `GD` column yet). -/
structure SideRec where
  played : Nat
  wins : Nat
  draws : Nat
  losses : Nat
  gf : Int
  ga : Int
  points : Nat
deriving DecidableEq

/-- The `home` group-by row for team `t` over the played matches:
count, outcome counts and goal/point sums taken home-side. -/
def homeSide (t : String) (played : List Game) : SideRec :=
  let ms := played.filter (fun g => g.homeTeam == t)
  { played := ms.length
    wins := ms.countP (fun g => outcomeOf g == Outcome.H)
    draws := ms.countP (fun g => outcomeOf g == Outcome.D)
    losses := ms.countP (fun g => outcomeOf g == Outcome.A)
    gf := (ms.map (fun g => g.homeGoals.getD 0)).sum
    ga := (ms.map (fun g => g.awayGoals.getD 0)).sum
    points := (ms.map homePts).sum }

/-- The `away` group-by row for team `t` over the played matches. -/
def awaySide (t : String) (played : List Game) : SideRec :=
  let ms := played.filter (fun g => g.awayTeam == t)
  { played := ms.length
    wins := ms.countP (fun g => outcomeOf g == Outcome.A)
    draws := ms.countP (fun g => outcomeOf g == Outcome.D)
    losses := ms.countP (fun g => outcomeOf g == Outcome.H)
    gf := (ms.map (fun g => g.awayGoals.getD 0)).sum
    ga := (ms.map (fun g => g.homeGoals.getD 0)).sum
    points := (ms.map awayPts).sum }

/-- Componentwise sum, as in `pd.concat([home, away]).groupby("Team").sum()`. -/
def addSide (a b : SideRec) : SideRec :=
  { played := a.played + b.played
    wins := a.wins + b.wins
    draws := a.draws + b.draws
    losses := a.losses + b.losses
    gf := a.gf + b.gf
    ga := a.ga + b.ga
    points := a.points + b.points }

/-- The aggregated record of team `t`: home-side plus away-side sums,
with `GD = GF - GA` attached (`agg["GD"] = agg["GF"] - agg["GA"]`). -/
def combineRow (t : String) (played : List Game) : Row :=
  let s := addSide (homeSide t played) (awaySide t played)
  { team := t
    played := s.played
    wins := s.wins
    draws := s.draws
    losses := s.losses
    gf := s.gf
    ga := s.ga
    gd := s.gf - s.ga
    points := s.points }

/-- The key set of `pd.concat([home, away]).groupby("Team")`: every team
occurring as a home or away team of a played match (deduplicated). -/
def aggTeams (played : List Game) : List String :=
  (played.map (·.homeTeam) ++ played.map (·.awayTeam)).dedup

/-- The `agg` table of `compute_standings`: one row per team appearing
in a played match. -/
def aggregate (played : List Game) : List Row :=
  (aggTeams played).map (fun t => combineRow t played)

/-- An all-zero standings row for team `t` (the `zeros` seed of
`ensure_all_teams`). -/
def zeroRow (t : String) : Row :=
  { team := t, played := 0, wins := 0, draws := 0, losses := 0,
    gf := 0, ga := 0, gd := 0, points := 0 }

/-- `ensure_all_teams(standings, all_teams_df)`: the left merge of the
zero-seeded roster with the standings on `Team`, NaN filled with 0.
The standings argument is keyed uniquely by team (it is a group-by
result), so the left merge yields exactly one row per roster entry:
the team's standings row when present, otherwise the zero row. -/
def ensure_all_teams (standings : List Row) (roster : List String) : List Row :=
  roster.map (fun t => (standings.find? (fun r => r.team == t)).getD (zeroRow t))

/-- Code-point comparison of character lists: Python compares strings
lexicographically by code point, which is what `sort_values` uses. -/
def charsLE : List Char → List Char → Bool
  | [], _ => true
  | _ :: _, [] => false
  | c :: cs, d :: ds =>
      if c.toNat < d.toNat then true
      else if d.toNat < c.toNat then false
      else charsLE cs ds

/-- String comparison by code points, as pandas sorts object columns. -/
def strLE (a b : String) : Bool := charsLE a.data b.data

/-- The sort key of `sort_values(by=["Points","GD","GF","Team"],
ascending=[False, False, False, True])`: lexicographic on
(Points desc, GD desc, GF desc, Team asc). -/
def rowLE (a b : Row) : Bool :=
  if a.points ≠ b.points then decide (b.points < a.points)
  else if a.gd ≠ b.gd then decide (b.gd < a.gd)
  else if a.gf ≠ b.gf then decide (b.gf < a.gf)
  else strLE a.team b.team

/-- The multi-key `sort_values` (stable lexsort). -/
def sortRows (l : List Row) : List Row :=
  l.insertionSort (fun a b => rowLE a b = true)

/-- The ranking key of `comp_rank`: `(row.Points, row.GD, row.GF)`. -/
def tripleOf (r : Row) : Nat × Int × Int := (r.points, r.gd, r.gf)

/-- Descending lexicographic order on ranking keys: the order in which
the sort lays out the `(Points, GD, GF)` triples. -/
def tripleGE (x y : Nat × Int × Int) : Prop :=
  y.1 < x.1 ∨ (x.1 = y.1 ∧ (y.2.1 < x.2.1 ∨ (x.2.1 = y.2.1 ∧ y.2.2 ≤ x.2.2)))

/-- Rows in key order (the relation the sorted table is pairwise in). -/
def tripleRel (a b : Row) : Prop := tripleGE (tripleOf a) (tripleOf b)

/-- The loop body of `comp_rank`, carrying the 1-based position `i`,
`last_key` and `last_rank`. -/
def comp_rank_aux : List Row → Nat → Option (Nat × Int × Int) → Nat → List Nat
  | [], _, _, _ => []
  | r :: rs, i, lastKey, lastRank =>
      let key := tripleOf r
      if some key = lastKey then
        lastRank :: comp_rank_aux rs (i + 1) lastKey lastRank
      else
        i :: comp_rank_aux rs (i + 1) (some key) i

/-- `comp_rank(sorted_df)`: competition ("1224") ranks down the sorted
table, starting with `last_key = None` and `last_rank = 0`. -/
def comp_rank (rows : List Row) : List Nat :=
  comp_rank_aux rows 1 none 0

/-- A standings row with its `Rank` column. -/
structure RankedRow where
  rank : Nat
  row : Row
deriving DecidableEq

/-- Attaching a rank column to the sorted table. -/
def attachRanks (ranks : List Nat) (rows : List Row) : List RankedRow :=
  List.zipWith (fun k r => { rank := k, row := r }) ranks rows

/-- `range(1, len(st)+1)`: the sequential ranks used on the empty and
no-played-match branches of `compute_standings`. -/
def seqRanks (n : Nat) : List Nat := (List.range n).map (· + 1)

/-- The table built on the `games.empty` / `played.empty` branches:
`ensure_all_teams` of an empty standings table, sorted, with
sequential ranks. -/
def emptyBranch (roster : List String) : List RankedRow :=
  let st := sortRows (ensure_all_teams [] roster)
  attachRanks (seqRanks st.length) st

/-- `compute_standings(games, teams_df)`. -/
def compute_standings (games : List Game) (roster : List String) : List RankedRow :=
  if games.isEmpty then emptyBranch roster
  else
    let played := games.filter isPlayed
    if played.isEmpty then emptyBranch roster
    else
      let tbl := sortRows (ensure_all_teams (aggregate played) roster)
      attachRanks (comp_rank tbl) tbl

/-- One row of the per-round listing (columns
`Round, Date, HomeTeam, AwayTeam, HomeGoals, AwayGoals`). -/
structure RoundRow where
  round : Option Int
  date : String
  homeTeam : String
  awayTeam : String
  homeGoals : Option Int
  awayGoals : Option Int
deriving DecidableEq

/-- Column selection of `per_round_table`. -/
def toRoundRow (g : Game) : RoundRow :=
  { round := g.round, date := g.date, homeTeam := g.homeTeam,
    awayTeam := g.awayTeam, homeGoals := g.homeGoals, awayGoals := g.awayGoals }

/-- The key of `sort_values(["Round","Date"], na_position="last")`:
rounds compared numerically with NaN last, ties broken by date. -/
def roundLE (a b : RoundRow) : Bool :=
  match a.round, b.round with
  | some x, some y =>
      if x ≠ y then decide (x < y) else strLE a.date b.date
  | some _, none => true
  | none, some _ => false
  | none, none => strLE a.date b.date

/-- `per_round_table(games)`. -/
def per_round_table (games : List Game) : List RoundRow :=
  (games.map toRoundRow).insertionSort (fun a b => roundLE a b = true)

/-- The raw match-data input: its column set plus its rows (already in
typed form; the numeric coercions of `load_games` are reflected in the
`Option Int` fields). -/
structure GamesInput where
  cols : List String
  rows : List Game

/-- The columns `load_games` checks for (`needed`). -/
def neededCols : List String :=
  ["Round", "GameInRound", "Date", "HomeTeam", "AwayTeam", "HomeGoals", "AwayGoals"]

/-- Whitespace trimming (`.str.strip()`), written on the character list
so that it evaluates by kernel reduction. -/
def trimStr (s : String) : String :=
  ⟨((s.data.dropWhile Char.isWhitespace).reverse.dropWhile Char.isWhitespace).reverse⟩

/-- String trimming applied to `HomeTeam`, `AwayTeam`, `Date`. -/
def trimGame (g : Game) : Game :=
  { g with homeTeam := trimStr g.homeTeam, awayTeam := trimStr g.awayTeam,
           date := trimStr g.date }

/-- `load_games(path)`: raise on the first missing required column,
otherwise trim the string columns and drop rows whose home or away
team is empty after trimming. -/
def load_games (inp : GamesInput) : Except String (List Game) :=
  match neededCols.find? (fun c => ¬ inp.cols.contains c) with
  | some c => .error ("Missing required column: " ++ c)
  | none =>
      .ok (((inp.rows.map trimGame).filter
        (fun g => g.homeTeam ≠ "" && g.awayTeam ≠ "")))

/-- The raw roster input: its column set plus the values of its `Team`
column. -/
structure TeamsInput where
  cols : List String
  rows : List String

/-- `load_teams(path)`: require a `Team` column, trim the names, drop
empties.  No deduplication is performed. -/
def load_teams (inp : TeamsInput) : Except String (List String) :=
  if "Team" ∈ inp.cols then
    .ok ((inp.rows.map trimStr).filter (fun t => t ≠ ""))
  else
    .error "teams.json must include a Team field"

/-- The contents `build_index` writes: the standings table (to
`standings.csv` and into the page) and the per-round listing. -/
structure BuildOutput where
  csvStandings : List RankedRow
  htmlStandings : List RankedRow
  htmlRounds : List RoundRow
deriving DecidableEq

/-- `build_index(games_path, out_dir, teams_path)`: load both inputs
(any load error propagates uncaught - there is no try/except in the
source), compute the standings and the round view, write both files. -/
def build_index (gi : GamesInput) (ti : TeamsInput) : Except String BuildOutput := do
  let games ← load_games gi
  let teams ← load_teams ti
  let standings := compute_standings games teams
  let rounds := per_round_table games
  pure { csvStandings := standings, htmlStandings := standings, htmlRounds := rounds }

/-- The unranked standings table underlying every branch of
`compute_standings`: one record per roster entry, sorted.  (On the
empty branches the played-match list is empty and each record is the
zero row, which coincides with `ensure_all_teams` of an empty table.) -/
def recordTable (games : List Game) (roster : List String) : List Row :=
  sortRows (roster.map (fun t => combineRow t (games.filter isPlayed)))

/-- Sample played match: A beats B 1-0 in round 1. -/
def gameAB : Game :=
  { round := some 1, gameInRound := some 1, date := "2024-01-01",
    homeTeam := "A", awayTeam := "B", homeGoals := some 1, awayGoals := some 0 }

/-- Sample played match: B draws C 2-2 in round 1. -/
def gameBC : Game :=
  { round := some 1, gameInRound := some 2, date := "2024-01-01",
    homeTeam := "B", awayTeam := "C", homeGoals := some 2, awayGoals := some 2 }

/-- Sample unplayed match: A vs C with a missing home goal count. -/
def gameUnplayed : Game :=
  { round := some 2, gameInRound := some 1, date := "2024-02-01",
    homeTeam := "A", awayTeam := "C", homeGoals := none, awayGoals := some 2 }

theorem combineRow_team (t : String) (l : List Game) : (combineRow t l).team = t := rfl

theorem combineRow_nil (t : String) : combineRow t [] = zeroRow t := rfl

theorem combineRow_of_not_mem {t : String} {played : List Game}
    (h : ¬ t ∈ aggTeams played) : combineRow t played = zeroRow t := by
  have hmem : ¬ t ∈ (played.map (·.homeTeam) ++ played.map (·.awayTeam)) := by
    intro hc; exact h (List.mem_dedup.mpr hc)
  rw [List.mem_append] at hmem
  push_neg at hmem
  have hhome : played.filter (fun g => g.homeTeam == t) = [] := by
    rw [List.filter_eq_nil_iff]
    intro g hg hbeq
    exact hmem.1 (List.mem_map.mpr ⟨g, hg, eq_of_beq hbeq⟩)
  have haway : played.filter (fun g => g.awayTeam == t) = [] := by
    rw [List.filter_eq_nil_iff]
    intro g hg hbeq
    exact hmem.2 (List.mem_map.mpr ⟨g, hg, eq_of_beq hbeq⟩)
  simp [combineRow, homeSide, awaySide, addSide, zeroRow, hhome, haway]

theorem find?_aggregate {played : List Game} {t : String} :
    ∀ (us : List String), t ∈ us →
      (us.map (fun u => combineRow u played)).find? (fun r => r.team == t) =
        some (combineRow t played) := by
  intro us
  induction us with
  | nil => intro h; cases h
  | cons u tl ih =>
      intro h
      by_cases hu : u = t
      · subst hu
        simp [List.find?_cons_of_pos, combineRow_team]
      · have ht : t ∈ tl := by
          rcases List.mem_cons.mp h with h1 | h1
          · exact absurd h1.symm hu
          · exact h1
        have hne : ((fun r => r.team == t) (combineRow u played)) = false := by
          simp [combineRow_team, hu]
        simp only [List.map_cons]
        rw [List.find?_cons_of_neg _ (by simp [hne])]
        exact ih ht

theorem ensure_aggregate (played : List Game) (roster : List String) :
    ensure_all_teams (aggregate played) roster =
      roster.map (fun t => combineRow t played) := by
  unfold ensure_all_teams aggregate
  apply List.map_congr_left
  intro t _
  by_cases hmem : t ∈ aggTeams played
  · rw [find?_aggregate (aggTeams played) hmem]
    rfl
  · have hnone : ((aggTeams played).map (fun u => combineRow u played)).find?
        (fun r => r.team == t) = none := by
      rw [List.find?_eq_none]
      intro x hx
      rcases List.mem_map.mp hx with ⟨u, hu, rfl⟩
      simp only [combineRow_team]
      intro hbeq
      exact hmem (eq_of_beq hbeq ▸ hu)
    rw [hnone, combineRow_of_not_mem hmem]
    rfl

theorem ensure_nil (roster : List String) (played : List Game) :
    (h : played = []) → ensure_all_teams [] roster =
      roster.map (fun t => combineRow t played) := by
  intro h
  subst h
  unfold ensure_all_teams
  apply List.map_congr_left
  intro t _
  rw [combineRow_nil]
  rfl

/-- `compute_standings` in one formula: every branch produces the sorted
per-roster record table; the played-empty branches attach sequential
ranks, the main branch attaches competition ranks. -/
theorem compute_standings_eq (games : List Game) (roster : List String) :
    compute_standings games roster =
      if (games.filter isPlayed).isEmpty then
        attachRanks (seqRanks (recordTable games roster).length) (recordTable games roster)
      else
        attachRanks (comp_rank (recordTable games roster)) (recordTable games roster) := by
  unfold compute_standings emptyBranch recordTable
  by_cases hg : games.isEmpty
  · have hnil : games = [] := List.isEmpty_iff.mp hg
    subst hnil
    simp only [if_pos hg, List.filter_nil, List.isEmpty_nil, if_pos]
    rw [ensure_nil roster [] rfl]
  · simp only [if_neg hg]
    by_cases hp : (games.filter isPlayed).isEmpty
    · have hpnil : games.filter isPlayed = [] := List.isEmpty_iff.mp hp
      simp only [hp, if_pos, if_true]
      rw [ensure_nil roster (games.filter isPlayed) hpnil]
    · simp only [hp, if_neg, if_false, Bool.false_eq_true]
      rw [ensure_aggregate]

theorem sortRows_perm (l : List Row) : (sortRows l).Perm l :=
  List.perm_insertionSort _ l

theorem attachRanks_map_row :
    ∀ (ks : List Nat) (rs : List Row), ks.length = rs.length →
      (attachRanks ks rs).map (fun x => x.row) = rs := by
  intro ks
  induction ks with
  | nil =>
      intro rs h
      cases rs with
      | nil => rfl
      | cons r tl => simp at h
  | cons k ktl ih =>
      intro rs h
      cases rs with
      | nil => simp at h
      | cons r tl =>
          simp only [attachRanks, List.zipWith_cons_cons, List.map_cons]
          rw [show (List.zipWith (fun k r => RankedRow.mk k r) ktl tl) = attachRanks ktl tl from rfl]
          rw [ih tl (by simpa using h)]

theorem mem_attachRanks {x : RankedRow} :
    ∀ {ks : List Nat} {rs : List Row}, x ∈ attachRanks ks rs → x.row ∈ rs := by
  intro ks
  induction ks with
  | nil => intro rs h; simp [attachRanks] at h
  | cons k ktl ih =>
      intro rs h
      cases rs with
      | nil => simp [attachRanks] at h
      | cons r tl =>
          simp only [attachRanks, List.zipWith_cons_cons] at h
          rcases List.mem_cons.mp h with h1 | h1
          · subst h1; exact List.mem_cons_self _ _
          · exact List.mem_cons_of_mem _ (ih h1)

theorem comp_rank_aux_length :
    ∀ (l : List Row) (s : Nat) (k : Option (Nat × Int × Int)) (r : Nat),
      (comp_rank_aux l s k r).length = l.length := by
  intro l
  induction l with
  | nil => intro s k r; rfl
  | cons a tl ih =>
      intro s k r
      unfold comp_rank_aux
      by_cases h : some (tripleOf a) = k
      · simp only [if_pos h, List.length_cons, ih]
      · simp only [if_neg h, List.length_cons, ih]

theorem seqRanks_length (n : Nat) : (seqRanks n).length = n := by
  simp [seqRanks]

theorem comp_rank_aux_cons (a : Row) (l : List Row) (s : Nat)
    (k : Option (Nat × Int × Int)) (r : Nat) :
    comp_rank_aux (a :: l) s k r =
      (if some (tripleOf a) = k then r else s) ::
        comp_rank_aux l (s + 1) (some (tripleOf a))
          (if some (tripleOf a) = k then r else s) := by
  unfold comp_rank_aux
  by_cases h : some (tripleOf a) = k
  · simp only [if_pos h]
    rw [h]
    cases l <;> rfl
  · simp only [if_neg h]
    cases l <;> rfl

theorem comp_rank_aux_getElem_succ (a : Row) (l : List Row) (s : Nat)
    (k : Option (Nat × Int × Int)) (r j : Nat)
    (hb : j + 1 < (comp_rank_aux (a :: l) s k r).length)
    (hb2 : j < (comp_rank_aux l (s + 1) (some (tripleOf a))
      (if some (tripleOf a) = k then r else s)).length) :
    (comp_rank_aux (a :: l) s k r)[j + 1] =
      (comp_rank_aux l (s + 1) (some (tripleOf a))
        (if some (tripleOf a) = k then r else s))[j] := by
  simp only [comp_rank_aux_cons, List.getElem_cons_succ]

theorem comp_rank_aux_getElem_zero (a : Row) (l : List Row) (s : Nat)
    (k : Option (Nat × Int × Int)) (r : Nat)
    (hb : 0 < (comp_rank_aux (a :: l) s k r).length) :
    (comp_rank_aux (a :: l) s k r)[0] = if some (tripleOf a) = k then r else s := by
  simp only [comp_rank_aux_cons, List.getElem_cons_zero]

/-- A row whose key differs from its predecessor gets the fresh rank
`s + j + 1` (its 1-based position counted from start position `s`). -/
theorem comp_rank_aux_getElem_ne :
    ∀ (l : List Row) (s : Nat) (k : Option (Nat × Int × Int)) (r j : Nat)
      (hj : j + 1 < l.length),
      tripleOf l[j + 1] ≠ tripleOf l[j] →
      ∀ (hb : j + 1 < (comp_rank_aux l s k r).length),
        (comp_rank_aux l s k r)[j + 1] = s + j + 1 := by
  intro l
  induction l with
  | nil => intro s k r j hj; simp at hj
  | cons a tl ih =>
      intro s k r j hj hne hb
      cases j with
      | zero =>
          have htl : 0 < tl.length := by
            simpa using hj
          rw [comp_rank_aux_getElem_succ a tl s k r 0 hb
            (by rw [comp_rank_aux_length]; exact htl)]
          cases tl with
          | nil => simp at htl
          | cons b tl2 =>
              rw [comp_rank_aux_getElem_zero]
              have hab : tripleOf b ≠ tripleOf a := by
                simpa using hne
              rw [if_neg (by simpa using hab)]
      | succ j0 =>
          have hj0 : j0 + 1 < tl.length := by
            simpa using hj
          rw [comp_rank_aux_getElem_succ a tl s k r (j0 + 1) hb
            (by rw [comp_rank_aux_length]; exact hj0)]
          have hne0 : tripleOf tl[j0 + 1] ≠ tripleOf tl[j0] := by
            simpa using hne
          rw [ih (s + 1) (some (tripleOf a))
            (if some (tripleOf a) = k then r else s) j0 hj0 hne0
            (by rw [comp_rank_aux_length]; exact hj0)]
          omega

/-- Along a block of rows that all share the key `t`, ranks are
inherited unchanged from the incoming `last_rank`. -/
theorem comp_rank_aux_getElem_const (t : Nat × Int × Int) :
    ∀ (l : List Row) (s r j : Nat) (hj : j < l.length),
      (∀ m (hm : m < l.length), m ≤ j → tripleOf l[m] = t) →
      ∀ (hb : j < (comp_rank_aux l s (some t) r).length),
        (comp_rank_aux l s (some t) r)[j] = r := by
  intro l
  induction l with
  | nil => intro s r j hj; simp at hj
  | cons a tl ih =>
      intro s r j hj hall hb
      have ha : tripleOf a = t := by
        have := hall 0 (by simp) (Nat.zero_le _)
        simpa using this
      cases j with
      | zero =>
          rw [comp_rank_aux_getElem_zero]
          rw [if_pos (by rw [ha])]
      | succ j0 =>
          have hj0 : j0 < tl.length := by simpa using hj
          rw [comp_rank_aux_getElem_succ a tl s (some t) r j0 hb
            (by rw [comp_rank_aux_length]; exact hj0)]
          rw [if_pos (by rw [ha]), ha]
          exact ih (s + 1) r j0 hj0
            (fun m hm hmj => by
              have := hall (m + 1) (by simpa using hm) (by omega)
              simpa using this)
            (by rw [comp_rank_aux_length]; exact hj0)

theorem charsLE_total : ∀ (x y : List Char),
    charsLE x y = true ∨ charsLE y x = true := by
  intro x
  induction x with
  | nil => intro y; left; rfl
  | cons c cs ih =>
      intro y
      cases y with
      | nil => right; rfl
      | cons d ds =>
          simp only [charsLE]
          split_ifs <;> first | (left; rfl) | (right; rfl) | (exact ih ds) | omega

theorem charsLE_trans : ∀ (x y z : List Char),
    charsLE x y = true → charsLE y z = true → charsLE x z = true := by
  intro x
  induction x with
  | nil => intro y z h1 h2; rfl
  | cons c cs ih =>
      intro y z h1 h2
      cases y with
      | nil => simp [charsLE] at h1
      | cons d ds =>
          cases z with
          | nil => simp [charsLE] at h2
          | cons e es =>
              simp only [charsLE] at h1 h2 ⊢
              split_ifs at h1 h2 ⊢ <;>
                first | rfl | (exact ih ds es h1 h2) | omega | simp_all

theorem strLE_trans {a b c : String} (h1 : strLE a b = true) (h2 : strLE b c = true) :
    strLE a c = true :=
  charsLE_trans a.data b.data c.data h1 h2

theorem rowLE_eq_true_iff (a b : Row) :
    rowLE a b = true ↔
      (b.points < a.points ∨ (a.points = b.points ∧
        (b.gd < a.gd ∨ (a.gd = b.gd ∧
          (b.gf < a.gf ∨ (a.gf = b.gf ∧ strLE a.team b.team = true)))))) := by
  unfold rowLE
  split_ifs with h1 h2 h3 <;> simp_all <;> omega

theorem rowLE_total (a b : Row) : rowLE a b = true ∨ rowLE b a = true := by
  rw [rowLE_eq_true_iff, rowLE_eq_true_iff]
  rcases Nat.lt_trichotomy a.points b.points with hp | hp | hp
  · right; left; exact hp
  · rcases Int.lt_trichotomy a.gd b.gd with hd | hd | hd
    · right; right; exact ⟨hp.symm, Or.inl hd⟩
    · rcases Int.lt_trichotomy a.gf b.gf with hf | hf | hf
      · right; right; exact ⟨hp.symm, Or.inr ⟨hd.symm, Or.inl hf⟩⟩
      · rcases charsLE_total a.team.data b.team.data with hs | hs
        · left; right; exact ⟨hp, Or.inr ⟨hd, Or.inr ⟨hf, hs⟩⟩⟩
        · right; right; exact ⟨hp.symm, Or.inr ⟨hd.symm, Or.inr ⟨hf.symm, hs⟩⟩⟩
      · left; right; exact ⟨hp, Or.inr ⟨hd, Or.inl hf⟩⟩
    · left; right; exact ⟨hp, Or.inl hd⟩
  · left; left; exact hp

theorem rowLE_trans {a b c : Row} (hab : rowLE a b = true) (hbc : rowLE b c = true) :
    rowLE a c = true := by
  rw [rowLE_eq_true_iff] at hab hbc ⊢
  rcases hab with hp1 | ⟨ep1, hd1 | ⟨ed1, hf1 | ⟨ef1, hs1⟩⟩⟩ <;>
    rcases hbc with hp2 | ⟨ep2, hd2 | ⟨ed2, hf2 | ⟨ef2, hs2⟩⟩⟩ <;>
      first
        | (left; omega)
        | (right; exact ⟨by omega, Or.inl (by omega)⟩)
        | (right; exact ⟨by omega, Or.inr ⟨by omega, Or.inl (by omega)⟩⟩)
        | (right; exact ⟨by omega, Or.inr ⟨by omega, Or.inr ⟨by omega, strLE_trans hs1 hs2⟩⟩⟩)

instance rowLE_isTotal : IsTotal Row (fun a b => rowLE a b = true) := ⟨rowLE_total⟩

instance rowLE_isTrans : IsTrans Row (fun a b => rowLE a b = true) :=
  ⟨fun _ _ _ => rowLE_trans⟩

theorem rowLE_implies_tripleRel {a b : Row} (h : rowLE a b = true) : tripleRel a b := by
  rw [rowLE_eq_true_iff] at h
  unfold tripleRel tripleGE tripleOf
  rcases h with h | ⟨e1, h | ⟨e2, h | ⟨e3, _⟩⟩⟩ <;> simp <;> omega

theorem sortRows_sorted_triple (l : List Row) : (sortRows l).Sorted tripleRel :=
  (List.sorted_insertionSort _ l).imp (fun h => rowLE_implies_tripleRel h)

theorem tripleGE_antisymm {x y : Nat × Int × Int}
    (h1 : tripleGE x y) (h2 : tripleGE y x) : x = y := by
  obtain ⟨x1, x2, x3⟩ := x
  obtain ⟨y1, y2, y3⟩ := y
  simp only [tripleGE] at h1 h2
  have : x1 = y1 ∧ x2 = y2 ∧ x3 = y3 := by omega
  simp [this.1, this.2.1, this.2.2]

theorem sorted_triple_between {l : List Row} (hs : l.Sorted tripleRel)
    {i m j : Nat} (him : i ≤ m) (hmj : m ≤ j) (hj : j < l.length)
    (hi : i < l.length) (hm : m < l.length)
    (heq : tripleOf l[i] = tripleOf l[j]) :
    tripleOf l[m] = tripleOf l[i] := by
  have hpw := List.pairwise_iff_getElem.mp hs
  rcases Nat.eq_or_lt_of_le him with rfl | him'
  · rfl
  · rcases Nat.eq_or_lt_of_le hmj with rfl | hmj'
    · exact heq.symm
    · have h1 : tripleRel l[i] l[m] := hpw i m hi hm him'
      have h2 : tripleRel l[m] l[j] := hpw m j hm hj hmj'
      unfold tripleRel at h1 h2
      rw [heq] at h1
      exact (tripleGE_antisymm h2 h1).trans heq.symm

/-- In a table sorted by the ranking key, two rows with the same key
receive the same rank from the `comp_rank` loop, whatever the incoming
loop state. -/
theorem comp_rank_aux_getElem_eq :
    ∀ (l : List Row) (s : Nat) (k : Option (Nat × Int × Int)) (r i j : Nat)
      (hs : l.Sorted tripleRel) (hij : i < j) (hj : j < l.length)
      (hi : i < l.length),
      tripleOf l[i] = tripleOf l[j] →
      ∀ (hbi : i < (comp_rank_aux l s k r).length)
        (hbj : j < (comp_rank_aux l s k r).length),
        (comp_rank_aux l s k r)[i] = (comp_rank_aux l s k r)[j] := by
  intro l
  induction l with
  | nil => intro s k r i j hs hij hj; simp at hj
  | cons a tl ih =>
      intro s k r i j hs hij hj hi heq hbi hbj
      cases j with
      | zero => omega
      | succ j0 =>
          have hj0 : j0 < tl.length := by simpa using hj
          cases i with
          | zero =>
              rw [comp_rank_aux_getElem_zero a tl s k r hbi]
              rw [comp_rank_aux_getElem_succ a tl s k r j0 hbj
                (by rw [comp_rank_aux_length]; exact hj0)]
              symm
              apply comp_rank_aux_getElem_const (tripleOf a) tl (s + 1) _ j0 hj0
              intro m hm hmj
              have hmem : (m + 1) < (a :: tl).length := by simpa using hm
              have := sorted_triple_between hs (Nat.zero_le (m + 1))
                (by omega : m + 1 ≤ j0 + 1) hj hi hmem heq
              simpa using this
          | succ i0 =>
              have hi0 : i0 < tl.length := by simpa using hi
              rw [comp_rank_aux_getElem_succ a tl s k r i0 hbi
                (by rw [comp_rank_aux_length]; exact hi0)]
              rw [comp_rank_aux_getElem_succ a tl s k r j0 hbj
                (by rw [comp_rank_aux_length]; exact hj0)]
              exact ih (s + 1) (some (tripleOf a))
                (if some (tripleOf a) = k then r else s) i0 j0
                hs.of_cons (by omega) hj0 hi0 (by simpa using heq)
                (by rw [comp_rank_aux_length]; exact hi0)
                (by rw [comp_rank_aux_length]; exact hj0)

theorem comp_rank_length (l : List Row) : (comp_rank l).length = l.length :=
  comp_rank_aux_length l 1 none 0

theorem comp_rank_getElem_zero (l : List Row)
    (hb : 0 < (comp_rank l).length) : (comp_rank l)[0] = 1 := by
  cases l with
  | nil => simp [comp_rank, comp_rank_aux] at hb
  | cons a tl =>
      unfold comp_rank at hb ⊢
      rw [comp_rank_aux_getElem_zero a tl 1 none 0 hb]
      simp

theorem attachRanks_getElem_rank :
    ∀ (ks : List Nat) (rs : List Row) (i : Nat)
      (hb : i < (attachRanks ks rs).length) (hk : i < ks.length),
      (attachRanks ks rs)[i].rank = ks[i] := by
  intro ks
  induction ks with
  | nil => intro rs i hb; simp [attachRanks] at hb
  | cons k kt ih =>
      intro rs i hb hk
      cases rs with
      | nil => simp [attachRanks] at hb
      | cons r rt =>
          cases i with
          | zero => rfl
          | succ i0 =>
              simp only [attachRanks, List.zipWith_cons_cons,
                List.getElem_cons_succ] at hb ⊢
              exact ih rt i0 (by simpa [attachRanks] using hb) (by simpa using hk)

theorem attachRanks_getElem_row :
    ∀ (ks : List Nat) (rs : List Row) (i : Nat)
      (hb : i < (attachRanks ks rs).length) (hr : i < rs.length),
      (attachRanks ks rs)[i].row = rs[i] := by
  intro ks
  induction ks with
  | nil => intro rs i hb; simp [attachRanks] at hb
  | cons k kt ih =>
      intro rs i hb hr
      cases rs with
      | nil => simp [attachRanks] at hb
      | cons r rt =>
          cases i with
          | zero => rfl
          | succ i0 =>
              simp only [attachRanks, List.zipWith_cons_cons,
                List.getElem_cons_succ] at hb ⊢
              exact ih rt i0 (by simpa [attachRanks] using hb) (by simpa using hr)

theorem attachRanks_length (ks : List Nat) (rs : List Row) :
    (attachRanks ks rs).length = min ks.length rs.length := by
  simp [attachRanks]

/-- C6: the outcome classifier is a pure function of the two goal
counts; a missing goal count yields `(0, 0, N)`, otherwise home win,
away win and draw yield `(3, 0, H)`, `(0, 3, A)` and `(1, 1, D)`. -/
theorem c6_outcome_classifier (g : Game) :
    (∀ g' : Game, g.homeGoals = g'.homeGoals → g.awayGoals = g'.awayGoals →
      per_match_points g = per_match_points g') ∧
    ((g.homeGoals = none ∨ g.awayGoals = none) →
      per_match_points g = (0, 0, Outcome.N)) ∧
    (∀ hg ag : Int, g.homeGoals = some hg → g.awayGoals = some ag →
      ((ag < hg → per_match_points g = (3, 0, Outcome.H)) ∧
       (hg < ag → per_match_points g = (0, 3, Outcome.A)) ∧
       (hg = ag → per_match_points g = (1, 1, Outcome.D)))) := by
  refine ⟨?_, ?_, ?_⟩
  · intro g' h1 h2
    simp only [per_match_points, h1, h2]
  · intro h
    rcases h with h | h
    · simp [per_match_points, h]
    · cases hh : g.homeGoals <;> simp [per_match_points, h, hh]
  · intro hg ag h1 h2
    refine ⟨fun hlt => ?_, fun hlt => ?_, fun heq => ?_⟩
    · simp only [per_match_points, h1, h2]
      rw [if_pos hlt]
    · simp only [per_match_points, h1, h2]
      rw [if_neg (by omega), if_pos hlt]
    · simp only [per_match_points, h1, h2]
      rw [if_neg (by omega), if_neg (by omega)]

theorem c6_witness : per_match_points gameAB = (3, 0, Outcome.H) :=
  ((c6_outcome_classifier gameAB).2.2 1 0 rfl rfl).1 (by omega)

/-- C5 (counterexample): with all six columns the claim calls required
present but `Date` absent, `load_games` still fails — so the claimed
"fails iff one of the six is absent" is false on the code. -/
theorem c5_counterexample :
    load_games { cols := ["Round", "GameInRound", "HomeTeam", "AwayTeam",
      "HomeGoals", "AwayGoals"], rows := [] } =
      Except.error "Missing required column: Date" := rfl

/-- C5 (amended): `load_games` fails iff one of the seven columns
`Round, GameInRound, Date, HomeTeam, AwayTeam, HomeGoals, AwayGoals`
is absent; `Date` is among the required columns and `Stadium` is not. -/
theorem c5_required_columns (inp : GamesInput) :
    ((∃ e, load_games inp = Except.error e) ↔ ∃ c ∈ neededCols, ¬ c ∈ inp.cols) ∧
    "Date" ∈ neededCols ∧ ¬ "Stadium" ∈ neededCols := by
  refine ⟨?_, by decide, by decide⟩
  unfold load_games
  cases hf : neededCols.find? (fun c => ¬ inp.cols.contains c) with
  | none =>
      simp only
      constructor
      · rintro ⟨e, he⟩
        simp at he
      · rintro ⟨c, hc, hnc⟩
        have h2 := List.find?_eq_none.mp hf c hc
        simp only [decide_eq_true_eq, Decidable.not_not] at h2
        exact absurd (by simpa using h2) hnc
  | some c =>
      simp only
      constructor
      · intro _
        refine ⟨c, List.mem_of_find?_eq_some hf, ?_⟩
        have := List.find?_some hf
        simpa using this
      · intro _
        exact ⟨"Missing required column: " ++ c, rfl⟩

theorem c5_witness :
    ((∃ e, load_games { cols := ([] : List String), rows := ([] : List Game) }
        = Except.error e) ↔
      ∃ c ∈ neededCols, ¬ c ∈ ([] : List String)) ∧
    "Date" ∈ neededCols ∧ ¬ "Stadium" ∈ neededCols :=
  c5_required_columns { cols := [], rows := [] }

/-- C3 (counterexample): on a games input missing the `Date` column the
build raises the schema error uncaught and produces no output at all —
refuting the claim that an error document is always written. -/
theorem c3_counterexample :
    build_index
      { cols := ["Round", "GameInRound", "HomeTeam", "AwayTeam",
        "HomeGoals", "AwayGoals"], rows := [] }
      { cols := ["Team"], rows := [] } =
      Except.error "Missing required column: Date" := rfl

/-- C3 (amended): when loading the match data fails, `build_index`
propagates the exception unchanged (there is no try/except and no
fallback error document in the source). -/
theorem c3_error_propagates (gi : GamesInput) (ti : TeamsInput) (e : String)
    (h : load_games gi = Except.error e) :
    build_index gi ti = Except.error e := by
  unfold build_index
  rw [h]
  rfl

theorem c3_witness :
    build_index
      { cols := ["Round", "GameInRound", "Date", "HomeTeam", "AwayTeam", "HomeGoals"],
        rows := [] }
      { cols := ["Team"], rows := [] } =
      Except.error "Missing required column: AwayGoals" :=
  c3_error_propagates _ _ _ rfl

theorem isPlayed_iff (g : Game) : isPlayed g = true ↔ outcomeOf g ≠ Outcome.N := by
  simp [isPlayed]

/-- C8: a match with a missing goal count contributes nothing to the
standings (dropping it from the input changes nothing), yet its row
still appears in the per-round listing. -/
theorem c8_unplayed_excluded (g : Game) (games : List Game) (roster : List String)
    (h : g.homeGoals = none ∨ g.awayGoals = none) :
    compute_standings (g :: games) roster = compute_standings games roster ∧
    toRoundRow g ∈ per_round_table (g :: games) := by
  have hnp : ¬ isPlayed g = true := by
    rw [isPlayed_iff]
    rcases h with h | h
    · simp [outcomeOf, per_match_points, h]
    · cases hh : g.homeGoals <;> simp [outcomeOf, per_match_points, h, hh]
  constructor
  · have hfil : (g :: games).filter isPlayed = games.filter isPlayed :=
      List.filter_cons_of_neg hnp
    have hrt : recordTable (g :: games) roster = recordTable games roster := by
      unfold recordTable
      rw [hfil]
    rw [compute_standings_eq, compute_standings_eq, hfil, hrt]
  · unfold per_round_table
    rw [List.mem_insertionSort]
    exact List.mem_map_of_mem _ (List.mem_cons_self g games)

theorem c8_witness :
    compute_standings [gameUnplayed, gameAB] ["A", "B", "C"] =
      compute_standings [gameAB] ["A", "B", "C"] ∧
    toRoundRow gameUnplayed ∈ per_round_table [gameUnplayed, gameAB] :=
  c8_unplayed_excluded gameUnplayed [gameAB] ["A", "B", "C"] (Or.inl rfl)

theorem attachRanks_map_team (ks : List Nat) (rs : List Row)
    (hlen : ks.length = rs.length) :
    (attachRanks ks rs).map (fun r => r.row.team) = rs.map (fun r => r.team) := by
  rw [show (fun (r : RankedRow) => r.row.team) =
    ((fun (row : Row) => row.team) ∘ (fun (r : RankedRow) => r.row)) from rfl]
  rw [← List.map_map, attachRanks_map_row ks rs hlen]

theorem recordTable_map_team (games : List Game) (roster : List String) :
    ((recordTable games roster).map (fun r => r.team)).Perm roster := by
  have h2 : ((roster.map (fun t => combineRow t (games.filter isPlayed))).map
      (fun r => r.team)) = roster := by
    rw [List.map_map]
    have : ∀ t ∈ roster,
        ((fun (r : Row) => r.team) ∘ (fun t => combineRow t (games.filter isPlayed))) t
          = id t := by
      intro t _
      simp [combineRow_team]
    rw [List.map_congr_left this, List.map_id]
  unfold recordTable
  refine ((sortRows_perm _).map (fun r => r.team)).trans ?_
  rw [h2]

/-- C1 (amended): the rows of the standings table are exactly the
roster entries (one row per roster entry, in sorted order); a team
appearing only in matches but absent from the roster gets no row,
because `ensure_all_teams` left-joins onto the roster. -/
theorem c1_rows_are_roster (games : List Game) (roster : List String) :
    ((compute_standings games roster).map (fun r => r.row.team)).Perm roster := by
  rw [compute_standings_eq]
  split_ifs
  · rw [attachRanks_map_team _ _ (by rw [seqRanks_length])]
    exact recordTable_map_team games roster
  · rw [attachRanks_map_team _ _ (comp_rank_length _)]
    exact recordTable_map_team games roster

theorem c1_witness :
    ((compute_standings [gameAB] ["A"]).map (fun r => r.row.team)).Perm ["A"] :=
  c1_rows_are_roster [gameAB] ["A"]

/-- C1 (counterexample): team B plays in the match list but is absent
from the roster, and gets no row in the standings. -/
theorem c1_counterexample :
    gameAB.awayTeam = "B" ∧
    ¬ ("B" ∈ (compute_standings [gameAB] ["A"]).map (fun r => r.row.team)) :=
  ⟨rfl, by decide⟩

theorem countP_outcomes :
    ∀ (ms : List Game), (∀ g ∈ ms, outcomeOf g ≠ Outcome.N) →
      ms.countP (fun g => outcomeOf g == Outcome.H) +
        ms.countP (fun g => outcomeOf g == Outcome.D) +
        ms.countP (fun g => outcomeOf g == Outcome.A) = ms.length := by
  intro ms
  induction ms with
  | nil => intro _; rfl
  | cons g tl ih =>
      intro h
      have hg := h g (List.mem_cons_self g tl)
      have htl := ih (fun x hx => h x (List.mem_cons_of_mem _ hx))
      cases ho : outcomeOf g
      · simp [List.countP_cons, ho] <;> omega
      · simp [List.countP_cons, ho] <;> omega
      · simp [List.countP_cons, ho] <;> omega
      · exact absurd ho hg

theorem combineRow_played_split (t : String) (l : List Game)
    (hl : ∀ g ∈ l, isPlayed g = true) :
    (combineRow t l).played =
      (combineRow t l).wins + (combineRow t l).draws + (combineRow t l).losses := by
  have hhome := countP_outcomes (l.filter (fun g => g.homeTeam == t))
    (fun g hgm => (isPlayed_iff g).mp (hl g (List.mem_of_mem_filter hgm)))
  have haway := countP_outcomes (l.filter (fun g => g.awayTeam == t))
    (fun g hgm => (isPlayed_iff g).mp (hl g (List.mem_of_mem_filter hgm)))
  simp only [combineRow, addSide, homeSide, awaySide]
  omega

/-- C7: every row of the standings table satisfies
`Played = Wins + Draws + Losses`. -/
theorem c7_played_sum (games : List Game) (roster : List String)
    (r : RankedRow) (hr : r ∈ compute_standings games roster) :
    r.row.played = r.row.wins + r.row.draws + r.row.losses := by
  rw [compute_standings_eq] at hr
  have hrow : r.row ∈ recordTable games roster := by
    split_ifs at hr
    · exact mem_attachRanks hr
    · exact mem_attachRanks hr
  unfold recordTable sortRows at hrow
  rw [List.mem_insertionSort] at hrow
  rcases List.mem_map.mp hrow with ⟨t, _, hcomb⟩
  rw [← hcomb]
  exact combineRow_played_split t _ (fun g hg => (List.mem_filter.mp hg).2)

theorem c7_witness :
    (RankedRow.mk 1 (combineRow "A" [gameAB])) ∈ compute_standings [gameAB] ["A", "B"] ∧
    (RankedRow.mk 1 (combineRow "A" [gameAB])).row.played =
      (RankedRow.mk 1 (combineRow "A" [gameAB])).row.wins +
        (RankedRow.mk 1 (combineRow "A" [gameAB])).row.draws +
        (RankedRow.mk 1 (combineRow "A" [gameAB])).row.losses :=
  ⟨by decide, c7_played_sum [gameAB] ["A", "B"] _ (by decide)⟩

theorem homeSide_perm (t : String) {l1 l2 : List Game} (h : l1.Perm l2) :
    homeSide t l1 = homeSide t l2 := by
  have hf := h.filter (fun g => g.homeTeam == t)
  simp only [homeSide]
  congr 1
  · exact hf.length_eq
  · exact hf.countP_eq _
  · exact hf.countP_eq _
  · exact hf.countP_eq _
  · exact (hf.map _).sum_eq
  · exact (hf.map _).sum_eq
  · exact (hf.map _).sum_eq

theorem awaySide_perm (t : String) {l1 l2 : List Game} (h : l1.Perm l2) :
    awaySide t l1 = awaySide t l2 := by
  have hf := h.filter (fun g => g.awayTeam == t)
  simp only [awaySide]
  congr 1
  · exact hf.length_eq
  · exact hf.countP_eq _
  · exact hf.countP_eq _
  · exact hf.countP_eq _
  · exact (hf.map _).sum_eq
  · exact (hf.map _).sum_eq
  · exact (hf.map _).sum_eq

theorem combineRow_perm (t : String) {l1 l2 : List Game} (h : l1.Perm l2) :
    combineRow t l1 = combineRow t l2 := by
  unfold combineRow
  rw [homeSide_perm t h, awaySide_perm t h]

/-- C9: the standings table is invariant under permuting the match
list — the aggregation is commutative accumulation and the final sort
starts from the roster-ordered table. -/
theorem c9_order_independent (games1 games2 : List Game) (roster : List String)
    (h : games1.Perm games2) :
    compute_standings games1 roster = compute_standings games2 roster := by
  have hperm : (games1.filter isPlayed).Perm (games2.filter isPlayed) :=
    h.filter _
  have hrt : recordTable games1 roster = recordTable games2 roster := by
    unfold recordTable
    congr 1
    apply List.map_congr_left
    intro t _
    exact combineRow_perm t hperm
  have hnil : games1.filter isPlayed = [] ↔ games2.filter isPlayed = [] := by
    constructor <;> intro e
    · rw [e] at hperm
      exact hperm.symm.eq_nil
    · rw [e] at hperm
      exact hperm.eq_nil
  rw [compute_standings_eq, compute_standings_eq, hrt]
  split_ifs with h1 h2 h2
  · rfl
  · exact absurd (List.isEmpty_iff.mpr (hnil.mp (List.isEmpty_iff.mp h1))) h2
  · exact absurd (List.isEmpty_iff.mpr (hnil.mpr (List.isEmpty_iff.mp h2))) h1
  · rfl

theorem c9_witness :
    compute_standings [gameAB, gameBC] ["A", "B", "C"] =
      compute_standings [gameBC, gameAB] ["A", "B", "C"] :=
  c9_order_independent [gameAB, gameBC] [gameBC, gameAB] ["A", "B", "C"]
    (List.Perm.swap gameBC gameAB [])

theorem attachRanks_countP (p : Row → Bool) :
    ∀ (ks : List Nat) (rs : List Row), ks.length = rs.length →
      (attachRanks ks rs).countP (fun x => p x.row) = rs.countP p := by
  intro ks
  induction ks with
  | nil =>
      intro rs h
      cases rs with
      | nil => rfl
      | cons r tl => simp at h
  | cons k kt ih =>
      intro rs h
      cases rs with
      | nil => simp at h
      | cons r tl =>
          simp only [attachRanks, List.zipWith_cons_cons, List.countP_cons]
          rw [show (List.zipWith (fun k r => RankedRow.mk k r) kt tl)
            = attachRanks kt tl from rfl]
          rw [ih tl (by simpa using h)]

/-- C10: the roster is not deduplicated — a team name occurring twice
in the (trimmed, loaded) roster yields two standings rows for that
team, each carrying the team's full aggregated record. -/
theorem c10_duplicate_roster (ti : TeamsInput) (games : List Game)
    (roster : List String) (t : String)
    (hload : load_teams ti = Except.ok roster) (hcount : roster.count t = 2) :
    ((compute_standings games roster).countP (fun r => r.row.team == t)) = 2 ∧
    (∀ r ∈ compute_standings games roster, r.row.team = t →
      r.row = combineRow t (games.filter isPlayed)) := by
  constructor
  · rw [compute_standings_eq]
    have key : ∀ ks : List Nat, ks.length = (recordTable games roster).length →
        (attachRanks ks (recordTable games roster)).countP
          (fun r => r.row.team == t) = 2 := by
      intro ks hlen
      rw [show (fun (r : RankedRow) => r.row.team == t)
        = (fun (x : RankedRow) => (fun (row : Row) => row.team == t) x.row) from rfl]
      refine (attachRanks_countP (fun (row : Row) => row.team == t) ks _ hlen).trans ?_
      unfold recordTable
      rw [(sortRows_perm _).countP_eq]
      rw [List.countP_map]
      have : roster.countP ((fun (row : Row) => row.team == t) ∘
          (fun u => combineRow u (games.filter isPlayed))) = roster.countP (· == t) := by
        apply List.countP_congr
        intro u _
        simp [combineRow_team]
      rw [this, ← List.count_eq_countP]
      exact hcount
    split_ifs
    · exact key _ (by rw [seqRanks_length])
    · exact key _ (comp_rank_length _)
  · intro r hr hteam
    rw [compute_standings_eq] at hr
    have hrow : r.row ∈ recordTable games roster := by
      split_ifs at hr
      · exact mem_attachRanks hr
      · exact mem_attachRanks hr
    unfold recordTable sortRows at hrow
    rw [List.mem_insertionSort] at hrow
    rcases List.mem_map.mp hrow with ⟨u, _, hu⟩
    have hut : u = t := by rw [← hteam, ← hu, combineRow_team]
    rw [← hu, hut]

theorem c10_witness :
    ((compute_standings [gameAB] ["A", "A", "B"]).countP
      (fun r => r.row.team == "A")) = 2 ∧
    (∀ r ∈ compute_standings [gameAB] ["A", "A", "B"], r.row.team = "A" →
      r.row = combineRow "A" ([gameAB].filter isPlayed)) :=
  c10_duplicate_roster { cols := ["Team"], rows := ["A ", " A", "B"] }
    [gameAB] ["A", "A", "B"] "A" rfl (by decide)

theorem sum_map_add (l : List String) (f h : String → Nat) :
    (l.map (fun x => f x + h x)).sum = (l.map f).sum + (l.map h).sum := by
  induction l with
  | nil => rfl
  | cons a tl ih =>
      simp only [List.map_cons, List.sum_cons, ih]
      omega

theorem sum_map_indicator (roster : List String) (x : String) :
    (roster.map (fun t => if x == t then 1 else 0)).sum = roster.count x := by
  induction roster with
  | nil => rfl
  | cons a tl ih =>
      simp only [List.map_cons, List.sum_cons, List.count_cons]
      rw [ih]
      by_cases hxa : x = a
      · subst hxa
        simp only [beq_self_eq_true, if_true]
        omega
      · simp only [beq_iff_eq, if_neg hxa, if_neg (Ne.symm hxa)]
        omega

theorem sum_filter_block (key : Game → String) :
    ∀ (l : List Game) (roster : List String), roster.Nodup →
      (∀ g ∈ l, key g ∈ roster) →
      (roster.map (fun t => (l.filter (fun g => key g == t)).length)).sum = l.length := by
  intro l
  induction l with
  | nil =>
      intro roster _ _
      simp only [List.filter_nil, List.length_nil]
      apply List.sum_eq_zero
      intro x hx
      rcases List.mem_map.mp hx with ⟨t, _, rfl⟩
      rfl
  | cons g tl ih =>
      intro roster hnd hk
      have hk' : ∀ x ∈ tl, key x ∈ roster := fun x hx => hk x (List.mem_cons_of_mem _ hx)
      have hmem : key g ∈ roster := hk g (List.mem_cons_self g tl)
      have hpt : ∀ t ∈ roster, ((g :: tl).filter (fun x => key x == t)).length
          = (tl.filter (fun x => key x == t)).length + (if key g == t then 1 else 0) := by
        intro t _
        rw [List.filter_cons]
        split_ifs <;> simp
      rw [List.map_congr_left hpt, sum_map_add, ih roster hnd hk', sum_map_indicator,
        List.count_eq_one_of_mem hnd hmem]
      simp

/-- C4 (amended): when the roster is duplicate-free and contains every
team of a played match, the `Played` column sums to twice the number
of played matches.  (Without these side conditions the left join in
`ensure_all_teams` drops or duplicates rows and the identity fails.) -/
theorem c4_played_sum (games : List Game) (roster : List String)
    (hnd : roster.Nodup)
    (hmem : ∀ g ∈ games.filter isPlayed, g.homeTeam ∈ roster ∧ g.awayTeam ∈ roster) :
    ((compute_standings games roster).map (fun r => r.row.played)).sum =
      2 * (games.filter isPlayed).length := by
  have key : ∀ ks : List Nat, ks.length = (recordTable games roster).length →
      ((attachRanks ks (recordTable games roster)).map (fun r => r.row.played)).sum =
        ((roster.map (fun t => combineRow t (games.filter isPlayed))).map
          (fun r => r.played)).sum := by
    intro ks hlen
    rw [show (fun (r : RankedRow) => r.row.played)
      = ((fun (row : Row) => row.played) ∘ (fun (r : RankedRow) => r.row)) from rfl]
    rw [← List.map_map, attachRanks_map_row ks _ hlen]
    exact ((sortRows_perm _).map (fun row => row.played)).sum_eq
  have main : ((roster.map (fun t => combineRow t (games.filter isPlayed))).map
      (fun r => r.played)).sum = 2 * (games.filter isPlayed).length := by
    rw [List.map_map]
    have hsplit : ∀ t ∈ roster,
        ((fun (r : Row) => r.played) ∘ (fun t => combineRow t (games.filter isPlayed))) t
          = ((games.filter isPlayed).filter (fun g => g.homeTeam == t)).length +
            ((games.filter isPlayed).filter (fun g => g.awayTeam == t)).length := by
      intro t _
      rfl
    rw [List.map_congr_left hsplit, sum_map_add,
      sum_filter_block (fun g => g.homeTeam) _ roster hnd (fun g hg => (hmem g hg).1),
      sum_filter_block (fun g => g.awayTeam) _ roster hnd (fun g hg => (hmem g hg).2)]
    omega
  rw [compute_standings_eq]
  split_ifs
  · rw [key _ (by rw [seqRanks_length])]
    exact main
  · rw [key _ (comp_rank_length _)]
    exact main

/-- C4 (counterexample): with team B playing but missing from the
roster, the `Played` column sums to 1, not 2 x 1. -/
theorem c4_counterexample :
    ¬ (((compute_standings [gameAB] ["A"]).map (fun r => r.row.played)).sum
        = 2 * ([gameAB].filter isPlayed).length) := by decide

theorem c4_witness :
    (["A", "B"] : List String).Nodup ∧
    ((compute_standings [gameAB] ["A", "B"]).map (fun r => r.row.played)).sum
      = 2 * ([gameAB].filter isPlayed).length :=
  ⟨by decide, c4_played_sum [gameAB] ["A", "B"] (by decide) (by decide)⟩

/-- C2 (counterexample): with a two-team roster and no match played,
all rows carry the identical key `(0, 0, 0)` yet the code assigns the
sequential ranks `[1, 2]`, so tied rows do not share a rank on the
no-played-match branch. -/
theorem c2_counterexample :
    (compute_standings [] ["A", "B"]).map (fun r => tripleOf r.row) =
      [(0, 0, 0), (0, 0, 0)] ∧
    (compute_standings [] ["A", "B"]).map (fun r => r.rank) = [1, 2] :=
  ⟨by decide, by decide⟩

/-- C2 (amended): when at least one match has been played, ranking is
competition-style: the first row has rank 1, rows with identical
`(Points, GD, GF)` triples share a rank, and a row whose triple
differs from its predecessor's gets its 1-based position as rank.
When no match has been played the code instead assigns sequential
ranks `1..n` even to tied rows. -/
theorem c2_competition_ranking (games : List Game) (roster : List String)
    (hp : ¬ (games.filter isPlayed).isEmpty = true) :
    (∀ h0 : 0 < (compute_standings games roster).length,
      ((compute_standings games roster).get ⟨0, h0⟩).rank = 1) ∧
    (∀ i j (hi : i < (compute_standings games roster).length)
        (hj : j < (compute_standings games roster).length),
      tripleOf ((compute_standings games roster).get ⟨i, hi⟩).row =
        tripleOf ((compute_standings games roster).get ⟨j, hj⟩).row →
      ((compute_standings games roster).get ⟨i, hi⟩).rank =
        ((compute_standings games roster).get ⟨j, hj⟩).rank) ∧
    (∀ i (hi1 : i + 1 < (compute_standings games roster).length),
      tripleOf ((compute_standings games roster).get ⟨i + 1, hi1⟩).row ≠
        tripleOf ((compute_standings games roster).get
          ⟨i, Nat.lt_of_succ_lt hi1⟩).row →
      ((compute_standings games roster).get ⟨i + 1, hi1⟩).rank = i + 2) := by
  have hcs : compute_standings games roster =
      attachRanks (comp_rank (recordTable games roster)) (recordTable games roster) := by
    rw [compute_standings_eq, if_neg hp]
  have hlen : (comp_rank (recordTable games roster)).length =
      (recordTable games roster).length := comp_rank_length _
  have hout : (compute_standings games roster).length =
      (recordTable games roster).length := by
    rw [hcs, attachRanks_length, hlen, Nat.min_self]
  have hsorted : (recordTable games roster).Sorted tripleRel := sortRows_sorted_triple _
  refine ⟨?_, ?_, ?_⟩
  · intro h0
    simp only [List.get_eq_getElem]
    have hb : 0 < (attachRanks (comp_rank (recordTable games roster))
        (recordTable games roster)).length := by rw [← hcs]; exact h0
    have h1 : (compute_standings games roster)[0] =
        (attachRanks (comp_rank (recordTable games roster))
          (recordTable games roster))[0] := by
      congr 1
    rw [h1, attachRanks_getElem_rank _ _ 0 hb (by rw [hlen, ← hout]; exact h0)]
    exact comp_rank_getElem_zero _ (by rw [hlen, ← hout]; exact h0)
  · intro i j hi hj heq
    simp only [List.get_eq_getElem] at heq ⊢
    have hi' : i < (recordTable games roster).length := by rw [← hout]; exact hi
    have hj' : j < (recordTable games roster).length := by rw [← hout]; exact hj
    have hbi : i < (attachRanks (comp_rank (recordTable games roster))
        (recordTable games roster)).length := by rw [← hcs]; exact hi
    have hbj : j < (attachRanks (comp_rank (recordTable games roster))
        (recordTable games roster)).length := by rw [← hcs]; exact hj
    have hgi : (compute_standings games roster)[i] =
        (attachRanks (comp_rank (recordTable games roster))
          (recordTable games roster))[i] := by congr 1
    have hgj : (compute_standings games roster)[j] =
        (attachRanks (comp_rank (recordTable games roster))
          (recordTable games roster))[j] := by congr 1
    rw [hgi, hgj] at heq ⊢
    rw [attachRanks_getElem_row _ _ i hbi hi', attachRanks_getElem_row _ _ j hbj hj'] at heq
    rw [attachRanks_getElem_rank _ _ i hbi (by rw [hlen]; exact hi'),
      attachRanks_getElem_rank _ _ j hbj (by rw [hlen]; exact hj')]
    rcases Nat.lt_trichotomy i j with hij | hij | hij
    · exact comp_rank_aux_getElem_eq _ 1 none 0 i j hsorted hij hj' hi' heq
        (by rw [comp_rank_aux_length]; exact hi') (by rw [comp_rank_aux_length]; exact hj')
    · subst hij; rfl
    · exact (comp_rank_aux_getElem_eq _ 1 none 0 j i hsorted hij hi' hj' heq.symm
        (by rw [comp_rank_aux_length]; exact hj')
        (by rw [comp_rank_aux_length]; exact hi')).symm
  · intro i hi1 hne
    simp only [List.get_eq_getElem] at hne ⊢
    have hi1' : i + 1 < (recordTable games roster).length := by rw [← hout]; exact hi1
    have hi' : i < (recordTable games roster).length := Nat.lt_of_succ_lt hi1'
    have hb1 : i + 1 < (attachRanks (comp_rank (recordTable games roster))
        (recordTable games roster)).length := by rw [← hcs]; exact hi1
    have hb0 : i < (attachRanks (comp_rank (recordTable games roster))
        (recordTable games roster)).length := Nat.lt_of_succ_lt hb1
    have hg1 : (compute_standings games roster)[i + 1] =
        (attachRanks (comp_rank (recordTable games roster))
          (recordTable games roster))[i + 1] := by congr 1
    have hg0 : (compute_standings games roster)[i] =
        (attachRanks (comp_rank (recordTable games roster))
          (recordTable games roster))[i] := by congr 1
    rw [hg1, hg0] at hne
    rw [hg1]
    rw [attachRanks_getElem_row _ _ (i + 1) hb1 hi1',
      attachRanks_getElem_row _ _ i hb0 hi'] at hne
    rw [attachRanks_getElem_rank _ _ (i + 1) hb1 (by rw [hlen]; exact hi1')]
    have := comp_rank_aux_getElem_ne (recordTable games roster) 1 none 0 i hi1' hne
      (by rw [comp_rank_aux_length]; exact hi1')
    have hbx : i + 1 < (comp_rank_aux (recordTable games roster) 1 none 0).length := by
      rw [comp_rank_aux_length]
      exact hi1'
    show (comp_rank_aux (recordTable games roster) 1 none 0)[i + 1] = i + 2
    exact this.trans (by omega)

theorem c2_witness :
    ¬ ([gameAB].filter isPlayed).isEmpty = true ∧
    ((compute_standings [gameAB] ["A", "B", "C", "D"]).get ⟨1, by decide⟩).rank =
      ((compute_standings [gameAB] ["A", "B", "C", "D"]).get ⟨2, by decide⟩).rank :=
  ⟨by decide, (c2_competition_ranking [gameAB] ["A", "B", "C", "D"] (by decide)).2.1
    1 2 (by decide) (by decide) (by decide)⟩

end BuildSite
